import Mathlib

/-!
Verification of `uui_perf.py` — a long-running network-health probe that
measures DNS resolution latency and ICMP ping latency per cycle and appends
one CSV row per cycle.

Shallow embedding conventions:
* Latencies are modelled as rationals (`ℚ`), elapsed DNS probe times in
  seconds (the unit `timeit.default_timer` differences carry), parsed ping
  times in milliseconds (the unit the `ping` output regex yields).
* External effects (network probes, the `ping` subprocess, OS signals) are
  modelled as outcome values supplied to the cycle; the Python functions
  become pure functions of those outcomes.
* Fallible Python code (raising an exception) is embedded with
  `Option`/`Except`: `none`/`.error` is an escaping exception.
-/

attribute [local semireducible] Rat.add Rat.mul Rat.inv Rat.sub Rat.ofScientific

deriving instance DecidableEq for Except

namespace UuiPerf

/-- The static DNS provider table (src/uui_perf.py lines 28-33):
four named providers with their IPv4 addresses, in source order. -/
def dns_servers : List (String × List String) :=
  [ ("Cisco OpenDNS", ["208.67.222.222", "208.67.220.220"])
  , ("Cloudflare",    ["1.1.1.1", "1.0.0.1"])
  , ("Google",        ["8.8.8.8", "8.8.4.4"])
  , ("Quad9",         ["149.112.112.112"]) ]

/-- The number of configured provider addresses (the DNS probe loop runs
once per address of every provider). -/
def numAddresses : Nat := (dns_servers.map fun p => p.2.length).sum

/-- The static ping host list (src/uui_perf.py lines 35-39). -/
def ping_servers : List String :=
  ["dns.google.com", "yahoo.com", "ping.ubnt.com"]

/-- Outcome of one DNS probe (one `dns.asyncquery.tcp` call timed with
`timeit.default_timer`, src lines 76-80), or of the zone-authority lookup
(src lines 100-103).
* `success t`: the awaited query returned and the measured elapsed time was
  `t` seconds.
* `timeout`: the call raised the timeout handled locally by the aggregator
  (`dns.exception.Timeout` for a probe, `dns.resolver.LifetimeTimeout` for
  the zone lookup).
* `raised e`: the call raised any other exception `e`, which the aggregator
  does not handle. -/
inductive DnsOutcome where
  | success (elapsedSec : ℚ)
  | timeout
  | raised (e : String)
  deriving DecidableEq, Repr

/-- Outcome of one `ping -c 1 -W 1 host` subprocess invocation
(src lines 46-52).
* `success ms`: exit status 0 and the regex `time=?([0-9]*\.[0-9]+) ms`
  matched, parsing `ms` milliseconds.
* `nonzeroExit`: `subprocess.check_output` raised `CalledProcessError`.
* `unparsable`: exit status 0 but the regex found no match. -/
inductive PingOutcome where
  | success (ms : ℚ)
  | nonzeroExit
  | unparsable
  deriving DecidableEq, Repr

/-- The `times` list built by the ping loop (src lines 44-56): each
successful, parsable ping appends its parsed milliseconds; a non-zero exit
hits `continue`, an unparsable response appends nothing. -/
def pingTimes : List PingOutcome → List ℚ
  | [] => []
  | .success ms :: rest => ms :: pingTimes rest
  | .nonzeroExit :: rest => pingTimes rest
  | .unparsable :: rest => pingTimes rest

/-- `get_ping_latency_ms` (src lines 42-58): the mean `sum(times)/len(times)`
over the collected ping times. When `times` is empty (every host failed)
the Python division raises `ZeroDivisionError`, embedded as `none`. -/
def get_ping_latency_ms (outcomes : List PingOutcome) : Option ℚ :=
  let times := pingTimes outcomes
  if times.length = 0 then none
  else some (times.sum / (times.length : ℚ))

/-- The entry one DNS probe (or the zone lookup) contributes to the `times`
list: a success appends its elapsed seconds (src line 80 / 103), a handled
timeout appends `0.0` (src line 96 / 106), any other exception escapes. -/
def dnsEntry : DnsOutcome → Except String ℚ
  | .success t => .ok t
  | .timeout => .ok 0
  | .raised e => .error e

/-- The per-address probe loop of `get_dns_latency_ms` (src lines 65-97):
entries are accumulated in probe order; the first unhandled exception
aborts the loop and escapes. -/
def probeEntries : List DnsOutcome → Except String (List ℚ)
  | [] => .ok []
  | o :: rest =>
    match dnsEntry o with
    | .error e => .error e
    | .ok t =>
      match probeEntries rest with
      | .error e => .error e
      | .ok ts => .ok (t :: ts)

/-- An exception escaping a Python function in this module: either an
exception `e` propagating out of a probe or lookup, or the
`ZeroDivisionError` of a mean over an empty `times` list. -/
inductive PyError where
  | exn (e : String)
  | zeroDivision
  deriving DecidableEq, Repr

/-- `get_dns_latency_ms` (src lines 61-109): one probe per configured
address (`probes`, in table order), then the zone-authority lookup
(`zone`); `avg_dns_seconds = sum(times)/len(times)` and the result is
`avg_dns_seconds * 1000`. An empty `times` list would raise
`ZeroDivisionError` in Python, embedded as a distinct error. -/
def get_dns_latency_ms (probes : List DnsOutcome) (zone : DnsOutcome) :
    Except PyError ℚ :=
  match probeEntries probes with
  | .error e => .error (.exn e)
  | .ok ts =>
    match dnsEntry zone with
    | .error e => .error (.exn e)
    | .ok z =>
      let times := ts ++ [z]
      if times.length = 0 then .error .zeroDivision
      else .ok (times.sum / (times.length : ℚ) * 1000)

/-- Round a rational to the nearest integer, ties to even — the rounding
Python string formatting applies when rendering `f"{x:.4f}"`. -/
def roundHalfEven (q : ℚ) : ℤ :=
  let f : ℤ := ⌊q⌋
  let r : ℚ := q - f
  if r < 1/2 then f
  else if 1/2 < r then f + 1
  else if f % 2 = 0 then f else f + 1

/-- Pad a digit string on the left with zeros to four characters. -/
def padLeft4 (s : String) : String :=
  if s.length ≥ 4 then s
  else String.mk (List.replicate (4 - s.length) '0') ++ s

/-- The Python format `f"{x:.4f}"` (src lines 116, 120): fixed-point with
exactly four digits after the decimal point. -/
def formatFixed4 (q : ℚ) : String :=
  let sign := if q < 0 then "-" else ""
  let n := (roundHalfEven (|q| * 10000)).toNat
  sign ++ toString (n / 10000) ++ "." ++ padLeft4 (toString (n % 10000))

/-- The CSV header row (src line 174). -/
def csvfields : List String := ["Local_Date", "DNS_Latency_ms", "PING_Latency_ms"]

/-- `signal_handler` (src lines 137-144): sets the global `exit_flag` to
`True`, whatever its previous value — the new flag value as a function of
the old one. Note: nothing in the module ever registers this handler with
`signal.signal`, so it is never invoked (see `mainSignalRegistrations`). -/
def signal_handler (_exit_flag : Bool) : Bool := true

/-- The signal registrations performed by the module: transcribed from the
source, which contains no `signal.signal(...)` call anywhere — neither in
`main` (src lines 147-208) nor at module top level — so `signal_handler`
is never installed and signal delivery keeps the Python default
dispositions (SIGINT raises `KeyboardInterrupt`, SIGTERM kills the
process). -/
def mainSignalRegistrations : List String := []

/-- The external events one iteration of the probe loop can see.
* `run date dnsProbes zone pings`: the cycle executes with the given probe
  outcomes; `date` is the `dt.now()` timestamp used for the CSV row.
* `kbInterrupt`: a `KeyboardInterrupt` (unregistered SIGINT, default
  disposition) is raised inside the cycle, before its row is written.
* `sigterm`: a SIGTERM is delivered; with no handler registered the OS
  default disposition terminates the process at once. -/
inductive CycleEvent where
  | run (date : String) (dnsProbes : List DnsOutcome) (zone : DnsOutcome)
      (pings : List PingOutcome)
  | kbInterrupt
  | sigterm
  deriving DecidableEq, Repr

/-- Result of one iteration of the `collect_readings` body
(src lines 113-121). -/
inductive IterOutcome where
  | wrote (row : List String)
  | raisedExn (e : PyError)
  | keyboardInterrupt
  | killed
  deriving DecidableEq, Repr

/-- One iteration of the `collect_readings` body (src lines 113-121):
compute the DNS aggregate, then the ping aggregate, then append the row
`(dt.now(), f"{dns_latency_ms:.4f}", f"{latency_ms:.4f}")`. An exception
escaping either aggregator aborts the iteration before the row write. -/
def runCycle : CycleEvent → IterOutcome
  | .run date dnsProbes zone pings =>
    match get_dns_latency_ms dnsProbes zone with
    | .error e => .raisedExn e
    | .ok dns_latency_ms =>
      match get_ping_latency_ms pings with
      | none => .raisedExn .zeroDivision
      | some latency_ms =>
        .wrote [date, formatFixed4 dns_latency_ms, formatFixed4 latency_ms]
  | .kbInterrupt => .keyboardInterrupt
  | .sigterm => .killed

/-- Observable process state threaded through the loop: the CSV file as a
list of rows, the back-off sleeps performed by `main`'s exception handler
(src line 194, each 5.0 seconds), and the global `exit_flag`. -/
structure RunState where
  file : List (List String)
  backoffs : List ℚ
  exitFlag : Bool
  deriving DecidableEq, Repr

/-- How the modelled run ends. -/
inductive Final where
  | running
  | exited (status : Nat)
  | killedBySignal
  deriving DecidableEq, Repr

/-- The supervised loop of `main` (src lines 185-195) fused with the
`while not exit_flag` loop of `collect_readings` (src lines 113-121); both
loops check `exit_flag` at the top of each iteration, so the fused loop
performs one check per iteration. Per iteration:
* a completed cycle appends exactly one row and continues;
* an exception escaping the cycle is caught by `except Exception`, a fixed
  5.0-second back-off is slept, and the loop resumes (`continue`);
* a `KeyboardInterrupt` is caught by `main` and breaks the loop, after
  which `main` logs uptime and returns 0 (src lines 188-189, 208);
* an unhandled SIGTERM terminates the process immediately.
An exhausted event list leaves the loop still running. -/
def mainLoop : RunState → List CycleEvent → RunState × Final
  | st, [] => (st, .running)
  | st, ev :: rest =>
    if st.exitFlag then (st, .exited 0)
    else
      match runCycle ev with
      | .wrote row => mainLoop { st with file := st.file ++ [row] } rest
      | .raisedExn _ => mainLoop { st with backoffs := st.backoffs ++ [5] } rest
      | .keyboardInterrupt => (st, .exited 0)
      | .killed => (st, .killedBySignal)

/-- `main` (src lines 147-208): opens the CSV path in `w` mode (truncating
any previous content) and writes the header exactly once (src lines
174-177), then runs the supervised loop; `exit_flag` starts `False` and —
the handler never being registered — is never set. -/
def main (events : List CycleEvent) : RunState × Final :=
  mainLoop { file := [csvfields], backoffs := [], exitFlag := false } events

/-- The number of cycles that run to completion (write their row) before
the loop stops, measured over the executed prefix of the event list. -/
def completedCycles : List CycleEvent → Nat
  | [] => 0
  | ev :: rest =>
    match runCycle ev with
    | .wrote _ => completedCycles rest + 1
    | .raisedExn _ => completedCycles rest
    | .keyboardInterrupt => 0
    | .killed => 0

/-- Is this DNS outcome a `success`? -/
def DnsOutcome.isSuccess : DnsOutcome → Bool
  | .success _ => true
  | _ => false

/-- Is this DNS outcome an unhandled exception? -/
def DnsOutcome.isRaised : DnsOutcome → Bool
  | .raised _ => true
  | _ => false

/-- No outcome in the list is an unhandled exception. -/
def noRaise (l : List DnsOutcome) : Bool := l.all fun o => !o.isRaised

/-- The elapsed time of a DNS outcome in milliseconds (0 when not a
success); used only by the spec-side definitions below. -/
def dnsElapsedMs : DnsOutcome → ℚ
  | .success t => 1000 * t
  | _ => 0

/-- Modelled from the spec, for comparison against `get_dns_latency_ms`:
"the arithmetic mean of the elapsed times of the Success outcomes of that
cycle's probes (one probe per address of every provider, plus the
zone-authority lookup); Failure outcomes contribute no entries to the
mean", in milliseconds; no Success outcome means no data. -/
def specDnsSuccessMean (probes : List DnsOutcome) (zone : DnsOutcome) :
    Option ℚ :=
  let succ := ((probes ++ [zone]).filter DnsOutcome.isSuccess).map dnsElapsedMs
  if succ = [] then none else some (succ.sum / (succ.length : ℚ))

/-- Modelled from the source's actual policy, for the amended statement of
the DNS aggregate: the mean over every entry of the cycle — probes in
order, then the zone lookup — where a Success contributes its elapsed time
in milliseconds and a handled timeout contributes a zero entry. -/
def specDnsZeroFillMean (probes : List DnsOutcome) (zone : DnsOutcome) : ℚ :=
  let entries := (probes ++ [zone]).map dnsElapsedMs
  entries.sum / (entries.length : ℚ)

/-- The entry (in seconds) a non-raising DNS outcome contributes to the
`times` list: elapsed seconds on success, `0.0` on a handled timeout. -/
def entryVal : DnsOutcome → ℚ
  | .success t => t
  | .timeout => 0
  | .raised _ => 0

/-- Is this ping outcome a `success`? -/
def PingOutcome.isSuccess : PingOutcome → Bool
  | .success _ => true
  | _ => false

/-- The parsed milliseconds of a ping outcome (0 when not a success); used
only by the spec-side definitions below. -/
def pingMs : PingOutcome → ℚ
  | .success ms => ms
  | _ => 0

/-- Modelled from the spec, for comparison against `get_ping_latency_ms`:
"the arithmetic mean over only the Success ping outcomes", failed hosts
excluded; no Success outcome means no data. -/
def specPingMean (outcomes : List PingOutcome) : Option ℚ :=
  let succ := (outcomes.filter PingOutcome.isSuccess).map pingMs
  if succ = [] then none else some (succ.sum / (succ.length : ℚ))

/-! ### Helper lemmas -/

lemma pingTimes_eq_spec (l : List PingOutcome) :
    pingTimes l = (l.filter PingOutcome.isSuccess).map pingMs := by
  induction l with
  | nil => rfl
  | cons o rest ih =>
    cases o <;>
      simp [pingTimes, PingOutcome.isSuccess, pingMs, List.filter_cons, ih]

lemma get_ping_eq_specPingMean (l : List PingOutcome) :
    get_ping_latency_ms l = specPingMean l := by
  unfold get_ping_latency_ms specPingMean
  rw [pingTimes_eq_spec]
  simp [List.length_eq_zero]

lemma dnsEntry_ok (o : DnsOutcome) (h : o.isRaised = false) :
    dnsEntry o = .ok (entryVal o) := by
  cases o <;> simp_all [dnsEntry, entryVal, DnsOutcome.isRaised]

lemma noRaise_cons {o : DnsOutcome} {rest : List DnsOutcome} :
    noRaise (o :: rest) = true ↔ o.isRaised = false ∧ noRaise rest = true := by
  simp [noRaise, List.all_cons]

lemma probeEntries_ok {l : List DnsOutcome} (h : noRaise l = true) :
    probeEntries l = .ok (l.map entryVal) := by
  induction l with
  | nil => rfl
  | cons o rest ih =>
    obtain ⟨h1, h2⟩ := noRaise_cons.mp h
    simp [probeEntries, dnsEntry_ok o h1, ih h2]

lemma probeEntries_raised {pre : List DnsOutcome} (post : List DnsOutcome)
    (e : String) (h : noRaise pre = true) :
    probeEntries (pre ++ .raised e :: post) = .error e := by
  induction pre with
  | nil => rfl
  | cons o rest ih =>
    obtain ⟨h1, h2⟩ := noRaise_cons.mp h
    simp [probeEntries, dnsEntry_ok o h1, ih h2]

lemma get_dns_ok {probes : List DnsOutcome} {zone : DnsOutcome}
    (h1 : noRaise probes = true) (h2 : zone.isRaised = false) :
    get_dns_latency_ms probes zone =
      .ok (((probes.map entryVal).sum + entryVal zone) /
            ((probes.length : ℚ) + 1) * 1000) := by
  unfold get_dns_latency_ms
  rw [probeEntries_ok h1, dnsEntry_ok zone h2]
  simp [List.sum_append]

lemma dnsElapsedMs_eq (o : DnsOutcome) : dnsElapsedMs o = 1000 * entryVal o := by
  cases o <;> simp [dnsElapsedMs, entryVal]

lemma sum_map_dnsElapsedMs (l : List DnsOutcome) :
    (l.map dnsElapsedMs).sum = 1000 * (l.map entryVal).sum := by
  induction l with
  | nil => simp
  | cons o rest ih =>
    simp only [List.map_cons, List.sum_cons, dnsElapsedMs_eq o, ih]
    ring

lemma get_dns_eq_zeroFill {probes : List DnsOutcome} {zone : DnsOutcome}
    (h1 : noRaise probes = true) (h2 : zone.isRaised = false) :
    get_dns_latency_ms probes zone = .ok (specDnsZeroFillMean probes zone) := by
  rw [get_dns_ok h1 h2]
  unfold specDnsZeroFillMean
  congr 1
  simp only [sum_map_dnsElapsedMs, dnsElapsedMs_eq, List.length_map,
    List.length_append, List.map_append, List.map_cons, List.map_nil,
    List.sum_append, List.sum_cons, List.sum_nil, List.length_cons,
    List.length_nil]
  push_cast
  ring

lemma noRaise_of_perm {l1 l2 : List DnsOutcome} (hp : l1.Perm l2)
    (h : noRaise l1 = true) : noRaise l2 = true := by
  simp only [noRaise, List.all_eq_true] at h ⊢
  exact fun o ho => h o (hp.mem_iff.mpr ho)

lemma mainLoop_raised_step {st : RunState} {ev : CycleEvent} {e : PyError}
    (rest : List CycleEvent) (hflag : st.exitFlag = false)
    (h : runCycle ev = .raisedExn e) :
    mainLoop st (ev :: rest) =
      mainLoop { st with backoffs := st.backoffs ++ [5] } rest := by
  simp [mainLoop, hflag, h]

lemma mainLoop_exitFlag (evs : List CycleEvent) : ∀ st : RunState,
    (mainLoop st evs).1.exitFlag = st.exitFlag := by
  induction evs with
  | nil => intro st; rfl
  | cons ev rest ih =>
    intro st
    by_cases hflag : st.exitFlag
    · simp [mainLoop, hflag]
    · cases h : runCycle ev <;> simp [mainLoop, hflag, h, ih]

lemma mainLoop_final_cases (evs : List CycleEvent) : ∀ st : RunState,
    (mainLoop st evs).2 = .running ∨ (mainLoop st evs).2 = .exited 0 ∨
      (mainLoop st evs).2 = .killedBySignal := by
  induction evs with
  | nil => intro st; left; rfl
  | cons ev rest ih =>
    intro st
    by_cases hflag : st.exitFlag
    · simp [mainLoop, hflag]
    · cases h : runCycle ev <;> simp [mainLoop, hflag, h, ih]

lemma mainLoop_file_length (evs : List CycleEvent) :
    ∀ (fl : List (List String)) (bo : List ℚ),
    (mainLoop ⟨fl, bo, false⟩ evs).1.file.length =
      fl.length + completedCycles evs := by
  induction evs with
  | nil => intro fl bo; simp [mainLoop, completedCycles]
  | cons ev rest ih =>
    intro fl bo
    cases h : runCycle ev with
    | wrote row =>
      simp only [mainLoop, Bool.false_eq_true, if_false, h, completedCycles]
      rw [ih]
      simp only [List.length_append, List.length_cons, List.length_nil]
      omega
    | raisedExn e =>
      simp only [mainLoop, Bool.false_eq_true, if_false, h, completedCycles]
      exact ih fl (bo ++ [5])
    | keyboardInterrupt => simp [mainLoop, h, completedCycles]
    | killed => simp [mainLoop, h, completedCycles]

lemma runCycle_wrote_shape {ev : CycleEvent} {row : List String}
    (h : runCycle ev = .wrote row) :
    ∃ d x y, row = [d, formatFixed4 x, formatFixed4 y] := by
  cases ev with
  | run date dnsProbes zone pings =>
    simp only [runCycle] at h
    cases hd : get_dns_latency_ms dnsProbes zone with
    | error e => simp [hd] at h
    | ok dns =>
      cases hp : get_ping_latency_ms pings with
      | none => simp [hd, hp] at h
      | some ping =>
        simp only [hd, hp, IterOutcome.wrote.injEq] at h
        exact ⟨date, dns, ping, h.symm⟩
  | kbInterrupt => simp [runCycle] at h
  | sigterm => simp [runCycle] at h

lemma mainLoop_file_extends (evs : List CycleEvent) : ∀ st : RunState,
    ∃ s, (mainLoop st evs).1.file = st.file ++ s ∧
      ∀ r ∈ s, ∃ d x y, r = [d, formatFixed4 x, formatFixed4 y] := by
  induction evs with
  | nil => intro st; exact ⟨[], by simp [mainLoop]⟩
  | cons ev rest ih =>
    rintro ⟨fl, bo, flag⟩
    cases flag with
    | true => exact ⟨[], by simp [mainLoop]⟩
    | false =>
      cases h : runCycle ev with
      | wrote row =>
        obtain ⟨s, hs, hshape⟩ := ih ⟨fl ++ [row], bo, false⟩
        refine ⟨row :: s, ?_, ?_⟩
        · simp only [mainLoop, Bool.false_eq_true, if_false, h]
          rw [hs]; simp
        · intro r hr
          rcases List.mem_cons.mp hr with hr | hr
          · exact hr ▸ runCycle_wrote_shape h
          · exact hshape r hr
      | raisedExn e =>
        obtain ⟨s, hs, hshape⟩ := ih ⟨fl, bo ++ [5], false⟩
        refine ⟨s, ?_, hshape⟩
        simp only [mainLoop, Bool.false_eq_true, if_false, h]
        exact hs
      | keyboardInterrupt => exact ⟨[], by simp [mainLoop, h]⟩
      | killed => exact ⟨[], by simp [mainLoop, h]⟩

lemma dot_mem_formatFixed4 (q : ℚ) : ('.' : Char) ∈ (formatFixed4 q).data := by
  unfold formatFixed4
  simp [String.data_append]

lemma formatFixed4_ne_header (q : ℚ) : formatFixed4 q ≠ "DNS_Latency_ms" := by
  intro h
  have hd := dot_mem_formatFixed4 q
  rw [h] at hd
  revert hd
  decide

lemma count_header_one {dataRows : List (List String)}
    (hshape : ∀ r ∈ dataRows, ∃ d x y, r = [d, formatFixed4 x, formatFixed4 y]) :
    (csvfields :: dataRows).count csvfields = 1 := by
  rw [List.count_cons_self]
  have hz : dataRows.count csvfields = 0 := by
    rw [List.count_eq_zero]
    intro hmem
    obtain ⟨d, x, y, hr⟩ := hshape _ hmem
    simp only [csvfields, List.cons.injEq, List.nil_eq, and_true] at hr
    exact formatFixed4_ne_header x hr.2.1.symm
  omega

lemma noRaise_append {a b : List DnsOutcome} (ha : noRaise a = true)
    (hb : noRaise b = true) : noRaise (a ++ b) = true := by
  simp only [noRaise, List.all_append, Bool.and_eq_true]
  exact ⟨ha, hb⟩

lemma get_dns_ne_zeroDivision (p : List DnsOutcome) (zo : DnsOutcome) :
    get_dns_latency_ms p zo ≠ .error .zeroDivision := by
  unfold get_dns_latency_ms
  cases hp : probeEntries p with
  | error e => simp
  | ok ts =>
    cases hz : dnsEntry zo with
    | error e => simp
    | ok z =>
      have hne : (ts ++ [z]).length ≠ 0 := by simp
      simp [hne]

/-! ### Claim theorems -/

/-- C1: the spec requires that when every ping host fails in a cycle the
ping aggregator return an explicit "no data" outcome and the Sink receive
a Sample with the ping field marked unavailable. The code instead raises
`ZeroDivisionError` from `sum(times)/len(times)` over an empty list
(src line 58): the aggregate is `none`, the exception is caught at the
Orchestrator boundary (no crash, a 5-second back-off), and the Sink
receives no row at all for that cycle. -/
theorem ping_all_hosts_fail_raises_zero_division :
    get_ping_latency_ms (List.replicate ping_servers.length .nonzeroExit) = none
    ∧ main [.run "2020-01-01 00:00:00" [.success (1/1000)] (.success (1/1000))
        (List.replicate ping_servers.length .nonzeroExit)] =
      ({ file := [csvfields], backoffs := [5], exitFlag := false }, .running) := by
  constructor
  · decide
  · decide

/-- C2 counterexample: the claim says Failure outcomes contribute no
entries to the DNS mean, but the code appends `0.0` for each timeout
(src lines 96, 106). For one 30 ms success and two timeouts the claimed
mean of the Success elapsed times is 30 ms while the code returns
`(0.030 + 0 + 0)/3 * 1000 = 10` ms. -/
theorem dns_failure_counted_as_zero_entry_cex :
    get_dns_latency_ms [.success (3/100), .timeout] .timeout = .ok 10
    ∧ specDnsSuccessMean [.success (3/100), .timeout] .timeout = some 30
    ∧ (Except.ok (10 : ℚ) : Except PyError ℚ) ≠ .ok 30 := by
  refine ⟨by decide, by decide, by decide⟩

/-- C2 amended: for every cycle with no unhandled exception,
`dns_latency_ms` equals the arithmetic mean over all of the cycle's
entries — one per probe plus the zone lookup — where a Success contributes
its elapsed time in milliseconds and a Failure (timeout) contributes a
`0.0` entry. -/
theorem dns_latency_is_zero_fill_mean (probes : List DnsOutcome)
    (zone : DnsOutcome) (h1 : noRaise probes = true)
    (h2 : zone.isRaised = false) :
    get_dns_latency_ms probes zone = .ok (specDnsZeroFillMean probes zone) :=
  get_dns_eq_zeroFill h1 h2

/-- Witness for the amended C2 theorem at a concrete cycle. -/
theorem dns_latency_is_zero_fill_mean_witness :
    noRaise [DnsOutcome.success (3/100), .timeout] = true
    ∧ DnsOutcome.isRaised .timeout = false
    ∧ get_dns_latency_ms [.success (3/100), .timeout] .timeout =
        .ok (specDnsZeroFillMean [.success (3/100), .timeout] .timeout) :=
  ⟨by decide, by decide,
    dns_latency_is_zero_fill_mean _ _ (by decide) (by decide)⟩

/-- C3: the claim requires interrupt/terminate signals to set the shutdown
flag, let the in-flight cycle complete and write its Sample, then exit
with status 0. The code defines `signal_handler` (which would set the flag
idempotently) but never registers it — the module contains no
`signal.signal` call — so SIGINT raises `KeyboardInterrupt`, aborting the
in-flight cycle before its row is written (here: two good cycles with an
interrupt during the second leave only the first row), and SIGTERM kills
the process outright; `exit_flag` is never set. -/
theorem signal_handler_unregistered_behavior :
    mainSignalRegistrations = []
    ∧ signal_handler false = true
    ∧ signal_handler (signal_handler false) = signal_handler false
    ∧ main [.run "2020-01-01 00:00:01" [.success (1/1000)] (.success (1/1000))
        [.success 2],
        .kbInterrupt,
        .run "2020-01-01 00:00:02" [.success (1/1000)] (.success (1/1000))
        [.success 2]] =
      ({ file := [csvfields, ["2020-01-01 00:00:01", "1.0000", "2.0000"]],
         backoffs := [], exitFlag := false }, .exited 0)
    ∧ main [.sigterm] =
        ({ file := [csvfields], backoffs := [], exitFlag := false },
          .killedBySignal) := by
  refine ⟨rfl, rfl, rfl, by decide, by decide⟩

/-- C4: `ping_latency_ms` is the arithmetic mean over only the Success
ping outcomes — a host with a non-zero ping exit or unparsable output is
excluded from the mean, not counted as zero; for hosts yielding
{10 ms success, failure, 30 ms success} the aggregate is 20.0, not the
40/3 a zero-counting policy would give. -/
theorem ping_latency_mean_over_successes_only (outcomes : List PingOutcome) :
    get_ping_latency_ms outcomes = specPingMean outcomes
    ∧ get_ping_latency_ms [.success 10, .nonzeroExit, .success 30] = some 20
    ∧ get_ping_latency_ms [.success 10, .unparsable, .success 30] = some 20
    ∧ some ((10 + 0 + 30 : ℚ) / 3) ≠ some (20 : ℚ) :=
  ⟨get_ping_eq_specPingMean outcomes, by decide, by decide, by decide⟩

/-- C5: an exception escaping one iteration of the loop (other than the
shutdown path) is caught at the Orchestrator boundary: the state gains one
fixed 5-second back-off, nothing is written, and the loop resumes on the
remaining events; and no run ever ends in anything but still-running, a
clean `exit 0`, or an external kill — a probe error never terminates the
process. -/
theorem orchestrator_catches_backs_off_and_resumes (st : RunState)
    (ev : CycleEvent) (e : PyError) (rest : List CycleEvent)
    (hflag : st.exitFlag = false) (h : runCycle ev = .raisedExn e) :
    mainLoop st (ev :: rest) =
      mainLoop { st with backoffs := st.backoffs ++ [5] } rest
    ∧ ∀ (evs : List CycleEvent) (s : RunState),
        (mainLoop s evs).2 = .running ∨ (mainLoop s evs).2 = .exited 0 ∨
          (mainLoop s evs).2 = .killedBySignal :=
  ⟨mainLoop_raised_step rest hflag h, fun evs s => mainLoop_final_cases evs s⟩

/-- Witness for C5: a cycle whose ping aggregate raises
`ZeroDivisionError` is absorbed into a 5-second back-off. -/
theorem orchestrator_catches_backs_off_and_resumes_witness :
    (({ file := [csvfields], backoffs := [], exitFlag := false } :
        RunState)).exitFlag = false
    ∧ runCycle (.run "2020-01-01 00:00:00" [] .timeout []) =
        .raisedExn .zeroDivision
    ∧ mainLoop { file := [csvfields], backoffs := [], exitFlag := false }
        [.run "2020-01-01 00:00:00" [] .timeout []] =
      mainLoop { file := [csvfields], backoffs := [] ++ [5], exitFlag := false }
        [] :=
  ⟨rfl, by decide,
    (orchestrator_catches_backs_off_and_resumes
      { file := [csvfields], backoffs := [], exitFlag := false }
      (.run "2020-01-01 00:00:00" [] .timeout []) .zeroDivision []
      rfl (by decide)).1⟩

/-- C6: the Sink writes the three-column header exactly once at startup;
after any run with N completed cycles the file has exactly N+1 rows, the
header is still the first row and occurs exactly once (Orchestrator
restarts after caught exceptions never rewrite it), every other row is a
data row (timestamp plus two 4-decimal latencies), and from any state the
loop only ever appends — no row is rewritten or deleted. -/
theorem sink_header_once_and_row_count (events : List CycleEvent) :
    (main events).1.file.length = completedCycles events + 1
    ∧ (main events).1.file.head? = some csvfields
    ∧ (main events).1.file.count csvfields = 1
    ∧ (∃ dataRows, (main events).1.file = csvfields :: dataRows
        ∧ ∀ r ∈ dataRows, ∃ d x y, r = [d, formatFixed4 x, formatFixed4 y])
    ∧ ∀ (st : RunState) (evs : List CycleEvent),
        ∃ s, (mainLoop st evs).1.file = st.file ++ s := by
  obtain ⟨s, hs, hshape⟩ :=
    mainLoop_file_extends events ⟨[csvfields], [], false⟩
  have hfile : (main events).1.file = csvfields :: s := by
    show (mainLoop ⟨[csvfields], [], false⟩ events).1.file = csvfields :: s
    rw [hs]; rfl
  refine ⟨?_, ?_, ?_, ⟨s, hfile, hshape⟩, ?_⟩
  · show (mainLoop ⟨[csvfields], [], false⟩ events).1.file.length =
      completedCycles events + 1
    rw [mainLoop_file_length events [csvfields] []]
    simp [Nat.add_comm]
  · rw [hfile]; rfl
  · rw [hfile]; exact count_header_one hshape
  · intro st evs
    obtain ⟨s2, hs2, _⟩ := mainLoop_file_extends evs st
    exact ⟨s2, hs2⟩

/-- C7: when every DNS probe of a cycle succeeds, `dns_latency_ms` is the
arithmetic mean of the measured elapsed times converted to milliseconds:
probes {5,15,25,15} ms give 15.0; probes [10,20,30,5] ms give 16.25,
which the appended row renders as "16.2500" (alongside the 15.0 ping mean
of [12,18] ms with one host failing, rendered "15.0000"). -/
theorem dns_all_success_mean_and_format (probes : List DnsOutcome)
    (zone : DnsOutcome)
    (h : (probes ++ [zone]).all DnsOutcome.isSuccess = true) :
    (∃ m, get_dns_latency_ms probes zone = .ok m
      ∧ specDnsSuccessMean probes zone = some m)
    ∧ get_dns_latency_ms
        [.success (5/1000), .success (15/1000), .success (25/1000)]
        (.success (15/1000)) = .ok 15
    ∧ get_dns_latency_ms
        [.success (10/1000), .success (20/1000), .success (30/1000)]
        (.success (5/1000)) = .ok 16.25
    ∧ formatFixed4 16.25 = "16.2500"
    ∧ runCycle (.run "2020-01-01 00:00:00"
        [.success (10/1000), .success (20/1000), .success (30/1000)]
        (.success (5/1000)) [.success 12, .nonzeroExit, .success 18]) =
      .wrote ["2020-01-01 00:00:00", "16.2500", "15.0000"] := by
  have hsucc : ∀ o ∈ probes ++ [zone], o.isSuccess = true :=
    List.all_eq_true.mp h
  have hnr : noRaise probes = true := by
    simp only [noRaise, List.all_eq_true]
    intro o ho
    have := hsucc o (List.mem_append_left _ ho)
    cases o <;> simp_all [DnsOutcome.isSuccess, DnsOutcome.isRaised]
  have hz : zone.isRaised = false := by
    have := hsucc zone (List.mem_append_right _ (List.mem_singleton_self zone))
    cases zone <;> simp_all [DnsOutcome.isSuccess, DnsOutcome.isRaised]
  refine ⟨⟨specDnsZeroFillMean probes zone, get_dns_eq_zeroFill hnr hz, ?_⟩,
    by decide, by decide, by decide, by decide⟩
  unfold specDnsSuccessMean specDnsZeroFillMean
  rw [List.filter_eq_self.mpr hsucc]
  have hne : (probes ++ [zone]).map dnsElapsedMs ≠ [] := by simp
  simp [hne]

/-- Witness for C7 at a concrete all-success cycle. -/
theorem dns_all_success_mean_and_format_witness :
    ([DnsOutcome.success (5/1000)] ++ [DnsOutcome.success (15/1000)]).all
      DnsOutcome.isSuccess = true
    ∧ ∃ m, get_dns_latency_ms [.success (5/1000)] (.success (15/1000)) = .ok m
        ∧ specDnsSuccessMean [.success (5/1000)] (.success (15/1000)) = some m :=
  ⟨by decide,
    (dns_all_success_mean_and_format [.success (5/1000)] (.success (15/1000))
      (by decide)).1⟩

/-- C8: the DNS aggregate is a pure reduction over the cycle's outcomes —
for any permutation of the probe outcome list (no unhandled exception
among them) the aggregate is unchanged, whatever the zone outcome. -/
theorem dns_aggregate_order_invariant (l1 l2 : List DnsOutcome)
    (zone : DnsOutcome) (hp : l1.Perm l2) (h1 : noRaise l1 = true) :
    get_dns_latency_ms l1 zone = get_dns_latency_ms l2 zone := by
  have h2 := noRaise_of_perm hp h1
  have hsum : (l1.map entryVal).sum = (l2.map entryVal).sum :=
    (hp.map entryVal).sum_eq
  have hlen : l1.length = l2.length := hp.length_eq
  unfold get_dns_latency_ms
  rw [probeEntries_ok h1, probeEntries_ok h2]
  cases hz : dnsEntry zone <;> simp [List.sum_append, hsum, hlen]

/-- Witness for C8: swapping two probe outcomes leaves the aggregate
unchanged. -/
theorem dns_aggregate_order_invariant_witness :
    ([DnsOutcome.success (1/100), .timeout].Perm
      [DnsOutcome.timeout, .success (1/100)])
    ∧ noRaise [DnsOutcome.success (1/100), .timeout] = true
    ∧ get_dns_latency_ms [.success (1/100), .timeout] .timeout =
        get_dns_latency_ms [.timeout, .success (1/100)] .timeout :=
  ⟨List.Perm.swap _ _ _, by decide,
    dns_aggregate_order_invariant _ _ .timeout (List.Perm.swap _ _ _)
      (by decide)⟩

/-- C9: the DNS aggregator's division is safe — each probe branch and the
zone lookup contribute exactly one entry, so the `times` list has exactly
one more entry than the number of configured provider addresses (8 entries
with the fixed 7-address table) and is never empty; in particular the
`ZeroDivisionError` branch is unreachable for every input, and an
all-timeout cycle yields `0.0` rather than an error or a "no data"
value. -/
theorem dns_division_safe_list_never_empty (probes : List DnsOutcome)
    (zone : DnsOutcome) (h1 : noRaise probes = true)
    (h2 : zone.isRaised = false) :
    (∃ ts z, probeEntries probes = .ok ts ∧ dnsEntry zone = .ok z
      ∧ ts.length = probes.length
      ∧ (ts ++ [z]).length = probes.length + 1
      ∧ (ts ++ [z]).length ≠ 0)
    ∧ numAddresses = 7
    ∧ (probes.length = numAddresses →
        ∃ ts z, probeEntries probes = .ok ts ∧ dnsEntry zone = .ok z
          ∧ (ts ++ [z]).length = 8)
    ∧ get_dns_latency_ms (List.replicate numAddresses .timeout) .timeout =
        .ok 0
    ∧ ∀ (p : List DnsOutcome) (zo : DnsOutcome),
        get_dns_latency_ms p zo ≠ .error .zeroDivision := by
  refine ⟨⟨probes.map entryVal, entryVal zone, probeEntries_ok h1,
      dnsEntry_ok zone h2, by simp, by simp, by simp⟩,
    by decide, ?_, by decide, get_dns_ne_zeroDivision⟩
  intro hlen
  exact ⟨probes.map entryVal, entryVal zone, probeEntries_ok h1,
    dnsEntry_ok zone h2, by simp [hlen]; decide⟩

/-- Witness for C9 at the all-timeout cycle over the fixed table. -/
theorem dns_division_safe_list_never_empty_witness :
    noRaise (List.replicate numAddresses .timeout) = true
    ∧ DnsOutcome.isRaised .timeout = false
    ∧ numAddresses = 7
    ∧ get_dns_latency_ms (List.replicate numAddresses .timeout) .timeout =
        .ok 0 :=
  ⟨by decide, by decide,
    (dns_division_safe_list_never_empty (List.replicate numAddresses .timeout)
      .timeout (by decide) (by decide)).2.1,
    (dns_division_safe_list_never_empty (List.replicate numAddresses .timeout)
      .timeout (by decide) (by decide)).2.2.2.1⟩

/-- C10: inside the DNS aggregator only timeouts are handled locally (each
contributing a Failure entry, so an exception-free cycle always yields an
aggregate), while any other exception raised by a probe — or by the zone
lookup — escapes `get_dns_latency_ms`; that cycle therefore writes no
Sample and is absorbed by the Orchestrator's back-off-and-restart path. -/
theorem dns_only_timeout_handled_locally (pre post : List DnsOutcome)
    (zone : DnsOutcome) (e : String) (date : String)
    (pings : List PingOutcome) (st : RunState) (rest : List CycleEvent)
    (hpre : noRaise pre = true) (hflag : st.exitFlag = false) :
    get_dns_latency_ms (pre ++ .raised e :: post) zone = .error (.exn e)
    ∧ (noRaise post = true → zone.isRaised = false →
        ∃ m, get_dns_latency_ms (pre ++ post) zone = .ok m)
    ∧ get_dns_latency_ms pre (.raised e) = .error (.exn e)
    ∧ runCycle (.run date (pre ++ .raised e :: post) zone pings) =
        .raisedExn (.exn e)
    ∧ mainLoop st (.run date (pre ++ .raised e :: post) zone pings :: rest) =
        mainLoop { st with backoffs := st.backoffs ++ [5] } rest := by
  have herr : get_dns_latency_ms (pre ++ .raised e :: post) zone =
      .error (.exn e) := by
    unfold get_dns_latency_ms
    rw [probeEntries_raised post e hpre]
  have hcycle : runCycle (.run date (pre ++ .raised e :: post) zone pings) =
      .raisedExn (.exn e) := by
    simp only [runCycle, herr]
  refine ⟨herr, ?_, ?_, hcycle, mainLoop_raised_step rest hflag hcycle⟩
  · intro hpost hz
    exact ⟨specDnsZeroFillMean (pre ++ post) zone,
      get_dns_eq_zeroFill (noRaise_append hpre hpost) hz⟩
  · unfold get_dns_latency_ms
    rw [probeEntries_ok hpre]
    rfl

/-- Witness for C10: a probe raising an exception makes the whole cycle a
back-off iteration. -/
theorem dns_only_timeout_handled_locally_witness :
    noRaise [DnsOutcome.timeout] = true
    ∧ (({ file := [csvfields], backoffs := [], exitFlag := false } :
        RunState)).exitFlag = false
    ∧ get_dns_latency_ms ([DnsOutcome.timeout] ++ .raised "boom" :: [])
        .timeout = .error (.exn "boom")
    ∧ mainLoop { file := [csvfields], backoffs := [], exitFlag := false }
        [.run "2020-01-01 00:00:00" ([DnsOutcome.timeout] ++ .raised "boom" :: [])
          .timeout []] =
      mainLoop { file := [csvfields], backoffs := [] ++ [5], exitFlag := false }
        [] := by
  have h := dns_only_timeout_handled_locally [DnsOutcome.timeout] []
    .timeout "boom" "2020-01-01 00:00:00" []
    { file := [csvfields], backoffs := [], exitFlag := false } []
    (by decide) rfl
  exact ⟨by decide, rfl, h.1, h.2.2.2.2⟩

end UuiPerf

